import Mathlib

/-!
Verification of the Electron/Chromium patcher for OCLP systems
(`electron_patcher_oclp_full.py`).

The Python source is shallowly embedded: filesystem state is passed
explicitly, `subprocess` and `Path` lookups become boolean oracles or
`Option` values, exceptions become `Except`, and JSON documents become an
inductive `Json` type whose objects are ordered association lists (Python
dicts preserve insertion order; JSON numbers are modelled as integers).
String operations (`split`, `lower`, substring membership) are defined
over character lists so that every definition evaluates inside the kernel.
-/

namespace ElectronPatcher

/-- Does the character list start with the given needle? (helper for
Python substring membership). -/
def leadsWith : List Char → List Char → Bool
  | [], _ => true
  | _ :: _, [] => false
  | a :: p, b :: l => a == b && leadsWith p l

/-- Python `needle in haystack` on strings, over character lists. -/
def containsSeq (n : List Char) : List Char → Bool
  | [] => n.isEmpty
  | c :: l => leadsWith n (c :: l) || containsSeq n l

/-- Python `s.split(c)` for a one-character separator, over character
lists: splitting the empty string yields one empty group. -/
def splitOnChar (c : Char) : List Char → List (List Char)
  | [] => [[]]
  | x :: xs =>
    if x = c then [] :: splitOnChar c xs
    else
      match splitOnChar c xs with
      | [] => [[x]]
      | g :: gs => (x :: g) :: gs

/-- Python `s.split(c)` for a one-character separator. -/
def pySplit (s : String) (c : Char) : List String :=
  (splitOnChar c s.toList).map String.mk

/-- ASCII lower-casing of one character (Python `str.lower` restricted to
the ASCII names appearing in the registry). -/
def charLower (c : Char) : Char :=
  if 'A' ≤ c && c ≤ 'Z' then Char.ofNat (c.toNat + 32) else c

/-- Python `s.lower()` (ASCII). -/
def lowerStr (s : String) : String :=
  String.mk (s.toList.map charLower)

/-- `BACKUP_SUFFIX` from the source. -/
def BACKUP_SUFFIX : String := ".oclp-original"

/-- `WRAPPER_MARKER` from the source. -/
def WRAPPER_MARKER : String := "# OCLP-WRAPPER-SCRIPT"

/-- `ElectronPatcher.DESIRED_KEY` from the source. -/
def DESIRED_KEY : String := "use-angle"

/-- `ElectronPatcher.DESIRED_VALUE` from the source. -/
def DESIRED_VALUE : String := "1"

/-- The `replacement` string built in `patch_local_state`:
`"{}@{}".format(DESIRED_KEY, DESIRED_VALUE)`. -/
def replacement : String := DESIRED_KEY ++ "@" ++ DESIRED_VALUE

/-- Content of a file on disk.  `text` is content that `read_text()`
decodes; `binary` is content (a byte list) whose decoding raises, as for a
genuine native executable. -/
inductive FileData where
  | text (s : String)
  | binary (b : List Nat)
deriving DecidableEq, Repr

/-- The two filesystem slots `patch_executable` / `restore_executable`
touch: the live executable and its `.oclp-original` sibling backup.
`none` means the file does not exist. -/
structure ExecFS where
  exe : Option FileData
  backup : Option FileData
deriving DecidableEq, Repr

/-- External observations consumed by `patch_executable` and
`restore_executable`: whether `find_app_path` finds the app, whether
`get_executable_from_app` yields a path, what `is_app_running` reports,
and the `--dry-run` flag. -/
structure PatchEnv where
  appFound : Bool
  execResolved : Bool
  running : Bool
  dryRun : Bool
deriving DecidableEq, Repr

/-- The distinct return sites of `patch_executable`; `toBool` recovers the
boolean the Python function returns. -/
inductive PatchOutcome where
  | notFound
  | noExecutable
  | alreadyPatched
  | blockedRunning
  | wouldPatch
  | patched
  | copyFailed
deriving DecidableEq, Repr

/-- The boolean value `patch_executable` returns at each return site. -/
def PatchOutcome.toBool : PatchOutcome → Bool
  | .wouldPatch => true
  | .patched => true
  | _ => false

/-- The distinct return sites of `restore_executable`. -/
inductive RestoreOutcome where
  | notFound
  | noExecutable
  | noBackup
  | blockedRunning
  | wouldRestore
  | restored
deriving DecidableEq, Repr

/-- The boolean value `restore_executable` returns at each return site. -/
def RestoreOutcome.toBool : RestoreOutcome → Bool
  | .wouldRestore => true
  | .restored => true
  | _ => false

/-- `is_already_patched`: false when the path does not exist, false when
`read_text()` raises (binary content), otherwise tests whether
`WRAPPER_MARKER` occurs in the decoded content.  The enclosing
`try/except` makes the function total. -/
def is_already_patched : Option FileData → Bool
  | none => false
  | some (.binary _) => false
  | some (.text s) => containsSeq WRAPPER_MARKER.toList s.toList

/-- `Path.name`: the last slash-separated component of a path. -/
def pathBaseName (p : String) : String :=
  (pySplit p '/').getLastD ""

/-- `create_wrapper_script`: the wrapper text written over the
executable, with the marker comment, the backup path and the re-invocation
of the backup with the added flag. -/
def create_wrapper_script (originalPath : String) (backupPath : String) : String :=
  "#!/bin/bash\n"
    ++ WRAPPER_MARKER ++ "\n"
    ++ "# This wrapper was created by electron_patcher_oclp_full.py\n"
    ++ "# Original executable backed up to: " ++ pathBaseName backupPath ++ "\n"
    ++ "# To restore: mv \"" ++ backupPath ++ "\" \"" ++ originalPath ++ "\"\n"
    ++ "\n"
    ++ "# Path to the original executable (backup)\n"
    ++ "ORIGINAL_EXEC=\"" ++ backupPath ++ "\"\n"
    ++ "\n"
    ++ "# Launch with OpenGL ANGLE backend\n"
    ++ "exec \"$ORIGINAL_EXEC\" --use-angle=gl \"$@\"\n"

/-- `patch_executable` over the two-slot filesystem.  The mode-bit
`chmod` and the external `xattr`/`codesign` calls do not change file
content and are omitted;  `shutil.copy2` from a missing source raises and
is caught by the enclosing `except`, giving `copyFailed`. -/
def patch_executable (env : PatchEnv) (exePath : String) (s : ExecFS) :
    PatchOutcome × ExecFS :=
  if !env.appFound then (.notFound, s)
  else if !env.execResolved then (.noExecutable, s)
  else if is_already_patched s.exe then (.alreadyPatched, s)
  else
    let s1 : ExecFS :=
      if s.backup.isSome && !(is_already_patched s.exe) && !env.dryRun then
        { s with exe := s.backup }
      else s
    if env.running then (.blockedRunning, s1)
    else if env.dryRun then (.wouldPatch, s1)
    else
      let wrapper : FileData :=
        .text (create_wrapper_script exePath (exePath ++ BACKUP_SUFFIX))
      match s1.backup with
      | some _ => (.patched, { s1 with exe := some wrapper })
      | none =>
        match s1.exe with
        | none => (.copyFailed, s1)
        | some c => (.patched, { exe := some wrapper, backup := some c })

/-- `restore_executable` over the two-slot filesystem: skip when no
backup, refuse when running, report-only in dry-run, otherwise copy the
backup over the executable and unlink the backup. -/
def restore_executable (env : PatchEnv) (s : ExecFS) :
    RestoreOutcome × ExecFS :=
  if !env.appFound then (.notFound, s)
  else if !env.execResolved then (.noExecutable, s)
  else
    match s.backup with
    | none => (.noBackup, s)
    | some b =>
      if env.running then (.blockedRunning, s)
      else if env.dryRun then (.wouldRestore, s)
      else (.restored, { exe := some b, backup := none })

/-- The executable-patch states named by the specification. -/
inductive ExecPatchState where
  | Unpatched
  | Patched
  | Inconsistent
deriving DecidableEq, Repr

/-- Follows the words of the specification (section 4.4): marker presence
means Patched, otherwise Unpatched, and backup-exists XOR marker-present
means Inconsistent.  Kept separate from the code model so the two can be
compared. -/
def specExecState (s : ExecFS) : ExecPatchState :=
  if xor s.backup.isSome (is_already_patched s.exe) then .Inconsistent
  else if is_already_patched s.exe then .Patched
  else .Unpatched

/-- `is_app_running`: the process-table queries are oracles; `.error`
models `subprocess.run` raising.  The function returns false at once when
the entry has no bundle identifier; the display-name query runs only when
the identifier query raises. -/
def is_app_running (bundleId : Option String)
    (bidQuery nameQuery : Except Unit Bool) : Bool :=
  match bundleId with
  | none => false
  | some _ =>
    match bidQuery with
    | .ok matched => matched
    | .error _ =>
      match nameQuery with
      | .ok matched => matched
      | .error _ => false

/-- Follows the words of the specification (section 4.3): match against
the bundle identifier first; if no identifier or no match, retry against
the display name; report not running only when both fail, treating a
query failure as no match.  Kept separate from the code model so the two
can be compared. -/
def specRunningCheck (bundleId : Option String)
    (bidQuery nameQuery : Except Unit Bool) : Bool :=
  let nameResult : Bool :=
    match nameQuery with
    | .ok matched => matched
    | .error _ => false
  match bundleId with
  | none => nameResult
  | some _ =>
    match bidQuery with
    | .ok true => true
    | .ok false => nameResult
    | .error _ => nameResult

/-- JSON values; objects are ordered association lists (Python dicts keep
insertion order, keys are unique after `json.loads`), numbers are
modelled as integers. -/
inductive Json where
  | null
  | bool (b : Bool)
  | num (n : Int)
  | str (s : String)
  | arr (xs : List Json)
  | obj (kvs : List (String × Json))
deriving Repr

/-- Python `d[k]` lookup on an object association list. -/
def objFind (kvs : List (String × Json)) (k : String) : Option Json :=
  match kvs with
  | [] => none
  | (k1, v) :: rest => if k1 = k then some v else objFind rest k

/-- Python `d[k] = v`: replace the value at the first binding of `k` in
place, or append a new binding at the end (insertion order). -/
def objSet (kvs : List (String × Json)) (k : String) (v : Json) :
    List (String × Json) :=
  match kvs with
  | [] => [(k, v)]
  | (k1, v1) :: rest =>
    if k1 = k then (k1, v) :: rest else (k1, v1) :: objSet rest k v

/-- One iteration of the `for i, entry in enumerate(experiments)` loop in
`patch_local_state`: returns the (possibly rewritten) entry, whether this
entry was rewritten (`changed`), and whether it was found already correct
(`found_correct`). -/
def procEntry (e : Json) : Json × Bool × Bool :=
  match e with
  | .str s =>
    if s.toList.contains '@' then
      let parts := pySplit s '@'
      let key := parts.headD ""
      let rest := parts.tail
      if key = DESIRED_KEY then
        let current := rest.headD ""
        if current = DESIRED_VALUE then (.str s, false, true)
        else (.str replacement, true, false)
      else (.str s, false, false)
    else (.str s, false, false)
  | _ => (e, false, false)

/-- The whole entry loop of `patch_local_state`: the rewritten list, the
accumulated `changed` flag and the accumulated `found_correct` flag. -/
def procList : List Json → List Json × Bool × Bool
  | [] => ([], false, false)
  | e :: es =>
    let r := procEntry e
    let rs := procList es
    (r.1 :: rs.1, r.2.1 || rs.2.1, r.2.2 || rs.2.2)

/-- Python `entry == replacement` where `replacement` is a string: only a
string entry with the same characters compares equal. -/
def jsonEqStr (e : Json) (s : String) : Bool :=
  match e with
  | .str t => t = s
  | _ => false

/-- The flag-list transformation of `patch_local_state`: run the entry
loop, then append a fresh `key@value` entry when nothing was found
correct and the (mutated) list does not already hold the replacement.
Returns the new list and the `changed` flag. -/
def patchExperiments (l : List Json) : List Json × Bool :=
  let r := procList l
  if !r.2.2 && !(r.1.any (fun e => jsonEqStr e replacement)) then
    (r.1 ++ [Json.str replacement], true)
  else (r.1, r.2.1)

/-- `browser.setdefault("enabled_labs_experiments", [])` followed by the
`isinstance(experiments, list)` repair: the working list is the stored
list when one is stored, and `[]` when the key is absent or holds a
non-list value. -/
def extractExperiments (bkvs : List (String × Json)) : List Json :=
  match objFind bkvs "enabled_labs_experiments" with
  | some (.arr xs) => xs
  | _ => []

/-- The document transformation of `patch_local_state` once the `browser`
sub-object `bkvs` has been obtained from the top-level object `kvs`:
patch the flag list and write both levels back in place. -/
def patchBrowser (kvs bkvs : List (String × Json)) : Bool × Json :=
  let r := patchExperiments (extractExperiments bkvs)
  (r.2, .obj (objSet kvs "browser"
    (.obj (objSet bkvs "enabled_labs_experiments" (.arr r.1)))))

/-- Python exceptions that escape the patcher functions. -/
inductive PyErr where
  | attributeError
  | typeError
deriving DecidableEq, Repr

/-- The in-memory part of `patch_local_state` on a parsed document:
`state_data.setdefault("browser", {})` raises `AttributeError` when the
document is not an object, and `browser.setdefault(...)` raises when the
stored `browser` value is not an object. -/
def patchLocalStateDoc (doc : Json) : Except PyErr (Bool × Json) :=
  match doc with
  | .obj kvs =>
    match objFind kvs "browser" with
    | some (.obj bkvs) => .ok (patchBrowser kvs bkvs)
    | some _ => .error .attributeError
    | none => .ok (patchBrowser kvs [])
  | _ => .error .attributeError

/-- On-disk state of a `Local State` preference file: absent, present but
unparsable, or present with parsed content `j`. -/
inductive PrefFile where
  | absent
  | garbage
  | doc (j : Json)
deriving Repr

/-- `patch_local_state` at the file level: skip when the file is absent,
report a parse failure without writing, and write the transformed
document back only when the transformation changed something and dry-run
is off.  The returned pair is (python return value, file content after
the call). -/
def patch_local_state (dryRun : Bool) (f : PrefFile) :
    Except PyErr (Bool × PrefFile) :=
  match f with
  | .absent => .ok (false, .absent)
  | .garbage => .ok (false, .garbage)
  | .doc j =>
    match patchLocalStateDoc j with
    | .error e => .error e
    | .ok r =>
      if !r.1 then .ok (false, .doc j)
      else if dryRun then .ok (true, .doc j)
      else .ok (true, .doc r.2)

/-- Python `current_value == desired_value` where `desired_value` is a
boolean: Python booleans compare equal to the integers 1 and 0. -/
def pyEqBool (j : Json) (v : Bool) : Bool :=
  match j with
  | .bool b => b = v
  | .num n => if v then n = 1 else n = 0
  | _ => false

/-- The dotted-key walk of `patch_settings_file`: descend through all but
the last segment creating empty objects for missing keys, then compare
the final value with the desired boolean and set it on mismatch.  A
non-object value met along the way raises (`in` on an intermediate
non-container raises `TypeError`, `.get` on the final non-dict raises
`AttributeError`), exactly as the unguarded Python loop does. -/
def walkSet (j : Json) (segs : List String) (v : Bool) :
    Except PyErr (Bool × Json) :=
  match segs with
  | [] => .error .attributeError
  | [final] =>
    match j with
    | .obj kvs =>
      match objFind kvs final with
      | some cur =>
        if pyEqBool cur v then .ok (false, .obj kvs)
        else .ok (true, .obj (objSet kvs final (.bool v)))
      | none => .ok (true, .obj (objSet kvs final (.bool v)))
    | _ => .error .attributeError
  | seg :: rest =>
    match j with
    | .obj kvs =>
      match walkSet ((objFind kvs seg).getD (.obj [])) rest v with
      | .error e => .error e
      | .ok r => .ok (r.1, .obj (objSet kvs seg r.2))
    | _ => .error .typeError

/-- On-disk state of an app settings file: absent, present but blank
(stripped content empty, parsed as an empty object), present but
unparsable, or present with parsed content `j`. -/
inductive SFile where
  | absent
  | blank
  | garbage
  | doc (j : Json)
deriving Repr

/-- The tail of `patch_settings_file` after the file has been read and
parsed: split the dotted key, infer the desired boolean from the last
segment name (`disable` substring means true), walk and set, and write
back only on a mismatch when dry-run is off.  `disk` is the file content
at that point. -/
def settingsCore (dryRun : Bool) (skey : String) (disk : SFile)
    (parsed : Json) : Except PyErr (Bool × SFile) :=
  let segs := pySplit skey '.'
  let final := segs.getLastD ""
  let desired := containsSeq "disable".toList (lowerStr final).toList
  match walkSet parsed segs desired with
  | .error e => .error e
  | .ok r =>
    if !r.1 then .ok (false, disk)
    else if dryRun then .ok (true, disk)
    else .ok (true, .doc r.2)

/-- `patch_settings_file`: skip when no settings file/key is declared;
when the file is absent, entries whose name contains `docker` get an
empty settings file created on disk (note: this write is not guarded by
dry-run) and processing continues on it; parse failures return false
without writing. -/
def patch_settings_file (dryRun : Bool) (cfgName : String)
    (declared : Bool) (skey : String) (f : SFile) :
    Except PyErr (Bool × SFile) :=
  if !declared then .ok (false, f)
  else
    match f with
    | .absent =>
      if containsSeq "docker".toList (lowerStr cfgName).toList then
        settingsCore dryRun skey (.doc (.obj [])) (.obj [])
      else .ok (false, .absent)
    | .garbage => .ok (false, .garbage)
    | .blank => settingsCore dryRun skey .blank (.obj [])
    | .doc j => settingsCore dryRun skey (.doc j) j

/-- One registry entry together with the observed state of everything it
touches: resolution and running oracles, its `Local State` files, its
settings file, and its executable slots. -/
structure App where
  name : String
  appFound : Bool
  execResolved : Bool
  running : Bool
  localStates : List PrefFile
  settingsDeclared : Bool
  settingsKey : String
  settingsFile : SFile
  needsExecPatch : Bool
  exec : ExecFS
deriving Repr

/-- The `for rel_path in config.local_state_paths` loop of
`patch_known_app`: one result line per successful `Local State` patch;
an exception escapes the loop. -/
def patchLocalStatesLoop (dryRun : Bool) :
    List PrefFile → Except PyErr (List String)
  | [] => .ok []
  | f :: fs =>
    match patch_local_state dryRun f with
    | .error e => .error e
    | .ok r =>
      match patchLocalStatesLoop dryRun fs with
      | .error e => .error e
      | .ok rs => .ok (if r.1 then "Local State patched" :: rs else rs)

/-- The `PatchEnv` under which `patch_known_app` invokes
`patch_executable` for an app. -/
def appEnv (dryRun : Bool) (a : App) : PatchEnv :=
  { appFound := a.appFound
    execResolved := a.execResolved
    running := a.running
    dryRun := dryRun }

/-- `patch_known_app`: resolve the app, run the `Local State` patches,
the settings patch, and (when requested and declared) the executable
patch, and aggregate the per-app outcome string.  No `try/except`
surrounds the three calls, so an exception in any one of them escapes. -/
def patch_known_app (dryRun patchExecs : Bool) (a : App) :
    Except PyErr String :=
  if !a.appFound then .ok "Not installed"
  else
    match patchLocalStatesLoop dryRun a.localStates with
    | .error e => .error e
    | .ok rs1 =>
      match patch_settings_file dryRun a.name a.settingsDeclared
          a.settingsKey a.settingsFile with
      | .error e => .error e
      | .ok r2 =>
        let rs2 := rs1 ++ (if r2.1 then ["Settings patched"] else [])
        let rs3 := rs2 ++
          (if patchExecs && a.needsExecPatch then
            (if a.execResolved && is_already_patched a.exec.exe then
              ["Executable already patched"]
            else if (patch_executable (appEnv dryRun a) a.name a.exec).1.toBool then
              ["Executable patched"]
            else [])
          else [])
        if rs3.isEmpty then
          if a.needsExecPatch && !patchExecs then
            .ok "Needs --patch-executables flag"
          else .ok "No changes needed"
        else .ok (String.intercalate ", " rs3)

/-- `patch_all_known_apps`: iterate the registry in order, recording the
outcome of every installed app.  The loop body is not wrapped in any
handler, so the first escaping exception aborts the whole batch. -/
def patch_all_known_apps (dryRun patchExecs : Bool) :
    List App → Except PyErr (List (String × String))
  | [] => .ok []
  | a :: rest =>
    match patch_known_app dryRun patchExecs a with
    | .error e => .error e
    | .ok r =>
      match patch_all_known_apps dryRun patchExecs rest with
      | .error e => .error e
      | .ok rs => .ok (if r = "Not installed" then rs else (a.name, r) :: rs)

/-- Does a flag-list entry carry the target key, in the sense of the
entry loop: a string containing `@` whose text before the first `@` is
`DESIRED_KEY`. -/
def matchesTarget (e : Json) : Bool :=
  match e with
  | .str s => s.toList.contains '@' && (pySplit s '@').headD "" = DESIRED_KEY
  | _ => false

/-- The value segment the entry loop reads from a flag entry: the text
between the first and second `@`. -/
def entryVal (s : String) : String :=
  ((pySplit s '@').tail).headD ""

/-- Number of flag-list entries carrying the target key. -/
def countTarget (l : List Json) : Nat :=
  l.countP (fun e => matchesTarget e)

/-- Top-level lookup in a parsed preference document. -/
def jsonGet (j : Json) (k : String) : Option Json :=
  match j with
  | .obj kvs => objFind kvs k
  | _ => none

/-- Lookup inside the `browser` sub-object of a preference document. -/
def browserGet (j : Json) (k : String) : Option Json :=
  match jsonGet j "browser" with
  | some (.obj bkvs) => objFind bkvs k
  | _ => none

/-- The top-level key list (in stored order) of a preference document. -/
def topKeys (j : Json) : List String :=
  match j with
  | .obj kvs => kvs.map Prod.fst
  | _ => []

/-- The flag list a preference document currently stores, with the same
defaulting the code applies: `[]` when the path is missing or holds a
non-list value. -/
def experimentsOf (j : Json) : List Json :=
  match jsonGet j "browser" with
  | some (.obj bkvs) => extractExperiments bkvs
  | _ => []

theorem procEntry_fst_of_not_changed (e : Json)
    (h : (procEntry e).2.1 = false) : (procEntry e).1 = e := by
  cases e with
  | str s =>
    simp only [procEntry] at h ⊢
    split_ifs at h ⊢ <;> simp_all
  | null => rfl
  | bool b => rfl
  | num n => rfl
  | arr xs => rfl
  | obj kvs => rfl

theorem procEntry_fst_of_changed (e : Json)
    (h : (procEntry e).2.1 = true) : (procEntry e).1 = Json.str replacement := by
  cases e with
  | str s =>
    simp only [procEntry] at h ⊢
    split_ifs at h ⊢ <;> simp_all
  | null => exact absurd h (by simp [procEntry])
  | bool b => exact absurd h (by simp [procEntry])
  | num n => exact absurd h (by simp [procEntry])
  | arr xs => exact absurd h (by simp [procEntry])
  | obj kvs => exact absurd h (by simp [procEntry])

theorem procEntry_replacement :
    procEntry (Json.str replacement) = (Json.str replacement, false, true) := rfl

theorem procEntry_idem (e : Json) :
    (procEntry (procEntry e).1).1 = (procEntry e).1 ∧
    (procEntry (procEntry e).1).2.1 = false := by
  cases hc : (procEntry e).2.1
  · have h := procEntry_fst_of_not_changed e hc
    rw [h]
    exact ⟨h, hc⟩
  · have h := procEntry_fst_of_changed e hc
    rw [h, procEntry_replacement]
    exact ⟨rfl, rfl⟩

theorem procEntry_correct_eq (e : Json) (h : (procEntry e).2.2 = true) :
    procEntry e = (e, false, true) := by
  cases e with
  | str s =>
    simp only [procEntry] at h ⊢
    split_ifs at h ⊢ <;> simp_all
  | null => exact absurd h (by simp [procEntry])
  | bool b => exact absurd h (by simp [procEntry])
  | num n => exact absurd h (by simp [procEntry])
  | arr xs => exact absurd h (by simp [procEntry])
  | obj kvs => exact absurd h (by simp [procEntry])

theorem procList_fst_map (l : List Json) :
    (procList l).1 = l.map (fun e => (procEntry e).1) := by
  induction l with
  | nil => rfl
  | cons e es ih => simp [procList, ih]

theorem procList_changed_any (l : List Json) :
    (procList l).2.1 = l.any (fun e => (procEntry e).2.1) := by
  induction l with
  | nil => rfl
  | cons e es ih => simp [procList, ih]

theorem procList_correct_any (l : List Json) :
    (procList l).2.2 = l.any (fun e => (procEntry e).2.2) := by
  induction l with
  | nil => rfl
  | cons e es ih => simp [procList, ih]

theorem procList_fst_of_not_changed (l : List Json)
    (h : (procList l).2.1 = false) : (procList l).1 = l := by
  rw [procList_fst_map]
  rw [procList_changed_any] at h
  simp only [List.any_eq_false] at h
  have : ∀ e ∈ l, (fun e => (procEntry e).1) e = e := by
    intro e he
    exact procEntry_fst_of_not_changed e (by simpa using h e he)
  calc l.map (fun e => (procEntry e).1) = l.map id := List.map_congr_left this
    _ = l := List.map_id l

theorem jsonEqStr_eq (e : Json) (s : String) (h : jsonEqStr e s = true) :
    e = Json.str s := by
  cases e <;> simp [jsonEqStr] at h <;> simp [h]

theorem mem_procList_fixed (l : List Json) (x : Json)
    (hx : x ∈ (procList l).1) :
    (procEntry x).1 = x ∧ (procEntry x).2.1 = false := by
  rw [procList_fst_map] at hx
  obtain ⟨e, _, rfl⟩ := List.mem_map.1 hx
  exact procEntry_idem e

theorem mem_patchExperiments_fixed (l : List Json) (x : Json)
    (hx : x ∈ (patchExperiments l).1) :
    (procEntry x).1 = x ∧ (procEntry x).2.1 = false := by
  simp only [patchExperiments] at hx
  split at hx
  · rcases List.mem_append.1 hx with hx | hx
    · exact mem_procList_fixed l x hx
    · have : x = Json.str replacement := by simpa using hx
      subst this
      rw [procEntry_replacement]
      exact ⟨rfl, rfl⟩
  · exact mem_procList_fixed l x hx

theorem patchExperiments_has_correct (l : List Json) :
    ∃ x ∈ (patchExperiments l).1, (procEntry x).2.2 = true := by
  simp only [patchExperiments]
  split
  case isTrue h =>
    refine ⟨Json.str replacement, ?_, ?_⟩
    · exact List.mem_append.2 (Or.inr (List.mem_singleton.2 rfl))
    · rw [procEntry_replacement]
  case isFalse h =>
    rw [Bool.and_eq_true, Bool.not_eq_true', Bool.not_eq_true'] at h
    rcases not_and_or.1 h with h | h
    · rw [Bool.not_eq_false, procList_correct_any, List.any_eq_true] at h
      obtain ⟨e, he, hc⟩ := h
      refine ⟨e, ?_, hc⟩
      rw [procList_fst_map]
      have := procEntry_correct_eq e hc
      exact List.mem_map.2 ⟨e, he, by rw [this]⟩
    · rw [Bool.not_eq_false, List.any_eq_true] at h
      obtain ⟨x, hx, he⟩ := h
      have hxr := jsonEqStr_eq x replacement he
      subst hxr
      exact ⟨Json.str replacement, hx, by rw [procEntry_replacement]⟩

theorem replacement_mem_of_changed (l : List Json)
    (h : (patchExperiments l).2 = true) :
    Json.str replacement ∈ (patchExperiments l).1 := by
  simp only [patchExperiments] at h ⊢
  split at h
  case isTrue hc =>
    rw [if_pos hc]
    exact List.mem_append.2 (Or.inr (List.mem_singleton.2 rfl))
  case isFalse hc =>
    rw [if_neg hc]
    rw [procList_changed_any, List.any_eq_true] at h
    obtain ⟨e, he, hce⟩ := h
    rw [procList_fst_map]
    exact List.mem_map.2 ⟨e, he, procEntry_fst_of_changed e hce⟩

theorem patchExperiments_of_fixed_correct (l : List Json)
    (hfix : ∀ x ∈ l, (procEntry x).1 = x ∧ (procEntry x).2.1 = false)
    (hcorr : ∃ x ∈ l, (procEntry x).2.2 = true) :
    patchExperiments l = (l, false) := by
  have hchanged : (procList l).2.1 = false := by
    rw [procList_changed_any]
    simp only [List.any_eq_false]
    intro x hx
    simp [(hfix x hx).2]
  have hfst : (procList l).1 = l := procList_fst_of_not_changed _ hchanged
  have hc : (procList l).2.2 = true := by
    rw [procList_correct_any, List.any_eq_true]
    exact hcorr
  simp [patchExperiments, hc, hfst, hchanged]

theorem patchExperiments_stable (l : List Json) :
    patchExperiments (patchExperiments l).1 = ((patchExperiments l).1, false) :=
  patchExperiments_of_fixed_correct (patchExperiments l).1
    (mem_patchExperiments_fixed l) (patchExperiments_has_correct l)

theorem patchExperiments_not_changed (l : List Json)
    (h : (patchExperiments l).2 = false) :
    (patchExperiments l).1 = l := by
  simp only [patchExperiments] at h ⊢
  split at h
  · simp at h
  · rw [if_neg (by assumption)]
    exact procList_fst_of_not_changed l h

theorem matchesTarget_replacement : matchesTarget (Json.str replacement) = true := rfl

theorem procEntry_of_not_matching (e : Json) (h : matchesTarget e = false) :
    procEntry e = (e, false, false) := by
  cases e with
  | str s =>
    simp only [matchesTarget] at h
    cases hc : s.toList.contains '@' with
    | false =>
      have hcn : ¬(s.toList.contains '@' = true) := by
        rw [hc]; exact Bool.false_ne_true
      simp only [procEntry]
      rw [if_neg hcn]
    | true =>
      rw [hc] at h
      simp only [Bool.true_and] at h
      have hk := of_decide_eq_false h
      simp only [procEntry]
      rw [if_pos hc, if_neg hk]
  | null => rfl
  | bool b => rfl
  | num n => rfl
  | arr xs => rfl
  | obj kvs => rfl

theorem matchesTarget_procEntry (e : Json) :
    matchesTarget (procEntry e).1 = matchesTarget e := by
  cases hm : matchesTarget e
  · rw [procEntry_of_not_matching e hm, hm]
  · cases hc : (procEntry e).2.1
    · rw [procEntry_fst_of_not_changed e hc, hm]
    · rw [procEntry_fst_of_changed e hc, matchesTarget_replacement]

theorem correct_matches (e : Json) (h : (procEntry e).2.2 = true) :
    matchesTarget e = true := by
  by_contra hne
  rw [Bool.not_eq_true] at hne
  rw [procEntry_of_not_matching e hne] at h
  exact absurd h (by simp)

theorem procEntry_matching_cases (e : Json) (hm : matchesTarget e = true) :
    (procEntry e).2.1 = true ∨ (procEntry e).2.2 = true := by
  cases e with
  | str s =>
    simp only [matchesTarget, Bool.and_eq_true] at hm
    obtain ⟨hc, hk⟩ := hm
    have hk2 := of_decide_eq_true hk
    simp only [procEntry]
    rw [if_pos hc, if_pos hk2]
    split_ifs
    · right; rfl
    · left; rfl
  | null => simp [matchesTarget] at hm
  | bool b => simp [matchesTarget] at hm
  | num n => simp [matchesTarget] at hm
  | arr xs => simp [matchesTarget] at hm
  | obj kvs => simp [matchesTarget] at hm

theorem matching_result_value (l : List Json) (x : Json)
    (hx : x ∈ (patchExperiments l).1) (hm : matchesTarget x = true) :
    ∃ s2, x = Json.str s2 ∧ entryVal s2 = DESIRED_VALUE := by
  obtain ⟨hfst, hch⟩ := mem_patchExperiments_fixed l x hx
  rcases procEntry_matching_cases x hm with hc | hc
  · rw [hc] at hch
    cases hch
  · cases x with
    | str s =>
      refine ⟨s, rfl, ?_⟩
      simp only [matchesTarget, Bool.and_eq_true] at hm
      obtain ⟨hat, hkey⟩ := hm
      have hkey2 := of_decide_eq_true hkey
      simp only [procEntry] at hc
      rw [if_pos hat, if_pos hkey2] at hc
      split_ifs at hc with hv
      exact hv
    | null => simp [matchesTarget] at hm
    | bool b => simp [matchesTarget] at hm
    | num n => simp [matchesTarget] at hm
    | arr xs => simp [matchesTarget] at hm
    | obj kvs => simp [matchesTarget] at hm

theorem countTarget_procList (l : List Json) :
    countTarget (procList l).1 = countTarget l := by
  induction l with
  | nil => rfl
  | cons e es ih =>
    show countTarget ((procEntry e).1 :: (procList es).1) = countTarget (e :: es)
    simp only [countTarget, List.countP_cons] at ih ⊢
    rw [matchesTarget_procEntry, ih]

theorem countTarget_append_replacement (l : List Json) :
    countTarget (l ++ [Json.str replacement]) = countTarget l + 1 := by
  simp [countTarget, List.countP_append, List.countP_cons,
    matchesTarget_replacement]

theorem countTarget_patchExperiments (l : List Json) :
    countTarget (patchExperiments l).1 =
      (if countTarget l = 0 then 1 else countTarget l) := by
  simp only [patchExperiments]
  split
  case isTrue hcnd =>
    rw [Bool.and_eq_true, Bool.not_eq_true', Bool.not_eq_true'] at hcnd
    obtain ⟨hcorr, hany⟩ := hcnd
    have hnom : ∀ e ∈ l, matchesTarget e = false := by
      intro e he
      by_contra hne
      rw [Bool.not_eq_false] at hne
      rcases procEntry_matching_cases e hne with hch | hco
      · have hmem : Json.str replacement ∈ (procList l).1 := by
          rw [procList_fst_map]
          exact List.mem_map.2 ⟨e, he, procEntry_fst_of_changed e hch⟩
        rw [List.any_eq_false] at hany
        have := hany _ hmem
        simp [jsonEqStr] at this
      · rw [procList_correct_any, List.any_eq_false] at hcorr
        have := hcorr e he
        simp [hco] at this
    have hc0 : countTarget l = 0 := by
      rw [countTarget, List.countP_eq_zero]
      intro e he
      simp [hnom e he]
    rw [countTarget_append_replacement, countTarget_procList, hc0, if_pos rfl]
  case isFalse hcnd =>
    have hpos : 0 < countTarget l := by
      rw [Bool.and_eq_true, Bool.not_eq_true', Bool.not_eq_true'] at hcnd
      rcases not_and_or.1 hcnd with hcorr | hany
      · rw [Bool.not_eq_false, procList_correct_any, List.any_eq_true] at hcorr
        obtain ⟨e, he, hce⟩ := hcorr
        rw [countTarget, List.countP_pos]
        exact ⟨e, he, correct_matches e hce⟩
      · rw [Bool.not_eq_false, List.any_eq_true] at hany
        obtain ⟨x, hx, hex⟩ := hany
        have hxr := jsonEqStr_eq x replacement hex
        subst hxr
        rw [procList_fst_map] at hx
        obtain ⟨e, he, hfe⟩ := List.mem_map.1 hx
        rw [countTarget, List.countP_pos]
        refine ⟨e, he, ?_⟩
        rw [← matchesTarget_procEntry, hfe]
        exact matchesTarget_replacement
    rw [countTarget_procList, if_neg (Nat.pos_iff_ne_zero.1 hpos)]

theorem filter_nonmatching_procList (l : List Json) :
    (procList l).1.filter (fun e => !matchesTarget e) =
      l.filter (fun e => !matchesTarget e) := by
  induction l with
  | nil => rfl
  | cons e es ih =>
    show ((procEntry e).1 :: (procList es).1).filter _ =
      (e :: es).filter _
    cases hm : matchesTarget e
    · have hfe : (procEntry e).1 = e := by
        rw [procEntry_of_not_matching e hm]
      rw [hfe]
      simp [List.filter_cons, hm, ih]
    · have hm2 : matchesTarget (procEntry e).1 = true := by
        rw [matchesTarget_procEntry, hm]
      simp [List.filter_cons, hm, hm2, ih]

theorem filter_nonmatching_patchExperiments (l : List Json) :
    (patchExperiments l).1.filter (fun e => !matchesTarget e) =
      l.filter (fun e => !matchesTarget e) := by
  simp only [patchExperiments]
  split
  · rw [List.filter_append, filter_nonmatching_procList]
    simp [List.filter_cons, matchesTarget_replacement]
  · exact filter_nonmatching_procList l

theorem objFind_objSet_same (kvs : List (String × Json)) (k : String)
    (v : Json) : objFind (objSet kvs k v) k = some v := by
  induction kvs with
  | nil => simp [objSet, objFind]
  | cons p rest ih =>
    obtain ⟨k1, v1⟩ := p
    by_cases h : k1 = k
    · simp [objSet, objFind, h]
    · simp [objSet, objFind, h, ih]

theorem objFind_objSet_ne (kvs : List (String × Json)) (k k2 : String)
    (v : Json) (h : k2 ≠ k) :
    objFind (objSet kvs k v) k2 = objFind kvs k2 := by
  induction kvs with
  | nil => simp [objSet, objFind, Ne.symm h]
  | cons p rest ih =>
    obtain ⟨k1, v1⟩ := p
    have h3 : k ≠ k2 := Ne.symm h
    by_cases h1 : k1 = k
    · simp [objSet, objFind, h1, h3]
    · by_cases h2 : k1 = k2
      · simp [objSet, objFind, h1, h2, h]
      · simp [objSet, objFind, h1, h2, ih]

theorem objSet_map_fst (kvs : List (String × Json)) (k : String) (v : Json) :
    (objSet kvs k v).map Prod.fst =
      (if (objFind kvs k).isSome then kvs.map Prod.fst
        else kvs.map Prod.fst ++ [k]) := by
  induction kvs with
  | nil => simp [objSet, objFind]
  | cons p rest ih =>
    obtain ⟨k1, v1⟩ := p
    by_cases h : k1 = k
    · simp [objSet, objFind, h]
    · simp only [objSet, objFind, h, if_false, List.map_cons, ih]
      split_ifs <;> simp

theorem objSet_self (kvs : List (String × Json)) (k : String) (v : Json)
    (h : objFind kvs k = some v) : objSet kvs k v = kvs := by
  induction kvs with
  | nil => simp [objFind] at h
  | cons p rest ih =>
    obtain ⟨k1, v1⟩ := p
    by_cases hk : k1 = k
    · subst hk
      simp [objFind] at h
      simp [objSet, h]
    · simp only [objFind, hk, if_false] at h
      simp [objSet, hk, ih h]

theorem patchLocalStateDoc_ok_inv (j : Json) (ch : Bool) (j2 : Json)
    (h : patchLocalStateDoc j = .ok (ch, j2)) :
    ∃ kvs bkvs, j = .obj kvs ∧
      (objFind kvs "browser" = some (.obj bkvs) ∨
        (objFind kvs "browser" = none ∧ bkvs = [])) ∧
      ch = (patchExperiments (extractExperiments bkvs)).2 ∧
      j2 = .obj (objSet kvs "browser"
        (.obj (objSet bkvs "enabled_labs_experiments"
          (.arr (patchExperiments (extractExperiments bkvs)).1)))) := by
  cases j with
  | obj kvs =>
    simp only [patchLocalStateDoc] at h
    cases hb : objFind kvs "browser" with
    | none =>
      rw [hb] at h
      simp only [Except.ok.injEq] at h
      refine ⟨kvs, [], rfl, Or.inr ⟨hb, rfl⟩, ?_, ?_⟩
      · have h1 : ch = (patchBrowser kvs []).1 := by rw [h]
        rw [h1]
        rfl
      · have h2 : j2 = (patchBrowser kvs []).2 := by rw [h]
        rw [h2]
        rfl
    | some bv =>
      cases bv with
      | obj bkvs =>
        rw [hb] at h
        simp only [Except.ok.injEq] at h
        refine ⟨kvs, bkvs, rfl, Or.inl hb, ?_, ?_⟩
        · have h1 : ch = (patchBrowser kvs bkvs).1 := by rw [h]
          rw [h1]
          rfl
        · have h2 : j2 = (patchBrowser kvs bkvs).2 := by rw [h]
          rw [h2]
          rfl
      | null => rw [hb] at h; exact absurd h (by simp)
      | bool b => rw [hb] at h; exact absurd h (by simp)
      | num n => rw [hb] at h; exact absurd h (by simp)
      | str s => rw [hb] at h; exact absurd h (by simp)
      | arr xs => rw [hb] at h; exact absurd h (by simp)
  | null => simp [patchLocalStateDoc] at h
  | bool b => simp [patchLocalStateDoc] at h
  | num n => simp [patchLocalStateDoc] at h
  | str s => simp [patchLocalStateDoc] at h
  | arr xs => simp [patchLocalStateDoc] at h

theorem patchLocalStateDoc_rebuild (kvs bkvs : List (String × Json))
    (l1 : List Json) (hstab : patchExperiments l1 = (l1, false)) :
    patchLocalStateDoc (.obj (objSet kvs "browser"
        (.obj (objSet bkvs "enabled_labs_experiments" (.arr l1))))) =
      .ok (false, .obj (objSet kvs "browser"
        (.obj (objSet bkvs "enabled_labs_experiments" (.arr l1))))) := by
  have hfb : objFind (objSet kvs "browser"
      (.obj (objSet bkvs "enabled_labs_experiments" (.arr l1)))) "browser" =
      some (.obj (objSet bkvs "enabled_labs_experiments" (.arr l1))) :=
    objFind_objSet_same kvs "browser" _
  have hfe : objFind (objSet bkvs "enabled_labs_experiments" (.arr l1))
      "enabled_labs_experiments" = some (.arr l1) :=
    objFind_objSet_same bkvs "enabled_labs_experiments" _
  have hself1 : objSet (objSet bkvs "enabled_labs_experiments" (.arr l1))
      "enabled_labs_experiments" (.arr l1) =
      objSet bkvs "enabled_labs_experiments" (.arr l1) :=
    objSet_self _ _ _ hfe
  have hself2 : objSet (objSet kvs "browser"
        (.obj (objSet bkvs "enabled_labs_experiments" (.arr l1))))
      "browser" (.obj (objSet bkvs "enabled_labs_experiments" (.arr l1))) =
      objSet kvs "browser"
        (.obj (objSet bkvs "enabled_labs_experiments" (.arr l1))) :=
    objSet_self _ _ _ hfb
  simp only [patchLocalStateDoc, hfb, patchBrowser, extractExperiments, hfe,
    hstab, hself1, hself2]

theorem experimentsOf_inv (kvs bkvs : List (String × Json))
    (hb : objFind kvs "browser" = some (.obj bkvs) ∨
      (objFind kvs "browser" = none ∧ bkvs = [])) :
    experimentsOf (.obj kvs) = extractExperiments bkvs := by
  rcases hb with hb | ⟨hb, rfl⟩
  · simp [experimentsOf, jsonGet, hb]
  · simp [experimentsOf, jsonGet, hb, extractExperiments, objFind]

theorem experimentsOf_rebuild (kvs bkvs : List (String × Json))
    (l1 : List Json) :
    experimentsOf (.obj (objSet kvs "browser"
      (.obj (objSet bkvs "enabled_labs_experiments" (.arr l1))))) = l1 := by
  simp [experimentsOf, jsonGet, objFind_objSet_same, extractExperiments]

/-- C1: after a successful executable patch from a clean state (existing
executable, no marker, no backup, app not running, dry-run off), a
subsequent restore copies the backup over the live executable and deletes
the backup, leaving the executable content byte-for-byte identical to the
pre-patch original. -/
theorem C1_restore_after_patch_roundtrip (env : PatchEnv) (p : String)
    (c : FileData) (s : ExecFS)
    (happ : env.appFound = true) (hexec : env.execResolved = true)
    (hrun : env.running = false) (hdry : env.dryRun = false)
    (hexe : s.exe = some c) (hmark : is_already_patched s.exe = false)
    (hback : s.backup = none) :
    (patch_executable env p s).1 = .patched ∧
    restore_executable env (patch_executable env p s).2 =
      (.restored, { exe := some c, backup := none }) := by
  obtain ⟨e1, b1⟩ := s
  simp only at hexe hback
  subst hexe hback
  simp [patch_executable, restore_executable, happ, hexec, hrun, hdry, hmark]

/-- C1 witness: the round trip at a concrete binary executable. -/
theorem C1_roundtrip_witness :
    (patch_executable ⟨true, true, false, false⟩ "/a/b"
      ⟨some (.binary [77, 90, 1]), none⟩).1 = .patched ∧
    restore_executable ⟨true, true, false, false⟩
      (patch_executable ⟨true, true, false, false⟩ "/a/b"
        ⟨some (.binary [77, 90, 1]), none⟩).2 =
      (.restored, { exe := some (.binary [77, 90, 1]), backup := none }) :=
  C1_restore_after_patch_roundtrip ⟨true, true, false, false⟩ "/a/b"
    (.binary [77, 90, 1]) ⟨some (.binary [77, 90, 1]), none⟩
    rfl rfl rfl rfl rfl rfl rfl

/-- C2 counterexample: with the app running, a backup present and no
marker in the executable, `patch_executable` still performs the repair
copy before the running check, so the executable content is mutated even
though the call reports failure.  This refutes `no filesystem mutation in
every starting state`. -/
theorem C2_running_repair_mutation_counterexample :
    (patch_executable ⟨true, true, true, false⟩ "/a/b"
      ⟨some (.text "ORIGINAL"), some (.text "BACKUP")⟩).1.toBool = false ∧
    (patch_executable ⟨true, true, true, false⟩ "/a/b"
      ⟨some (.text "ORIGINAL"), some (.text "BACKUP")⟩).2.exe =
      some (.text "BACKUP") ∧
    some (FileData.text "BACKUP") ≠ some (FileData.text "ORIGINAL") := by
  refine ⟨rfl, rfl, ?_⟩
  decide

/-- C2 amended: when the running check reports true the patch call always
returns a failure outcome and never touches the backup file, and the
executable is untouched except in the repair state (backup present, no
marker, dry-run off), where the backup has already been copied over the
live executable before the running check fires. -/
theorem C2_running_blocked_amended (env : PatchEnv) (p : String) (s : ExecFS)
    (h : env.running = true) :
    (patch_executable env p s).1.toBool = false ∧
    (patch_executable env p s).2.backup = s.backup ∧
    (patch_executable env p s).2.exe =
      (if env.appFound && env.execResolved && !(is_already_patched s.exe)
          && s.backup.isSome && !env.dryRun
        then s.backup else s.exe) := by
  cases hA : env.appFound <;> cases hE : env.execResolved <;>
    cases hP : is_already_patched s.exe <;> cases hB : s.backup.isSome <;>
      cases hD : env.dryRun <;>
        simp [patch_executable, PatchOutcome.toBool, hA, hE, hP, hB, hD, h]

/-- C2 amended witness: the repair state at concrete contents. -/
theorem C2_running_blocked_witness :
    (patch_executable ⟨true, true, true, false⟩ "/a/b"
      ⟨some (.text "ORIGINAL"), some (.text "BACKUP")⟩).1.toBool = false ∧
    (patch_executable ⟨true, true, true, false⟩ "/a/b"
      ⟨some (.text "ORIGINAL"), some (.text "BACKUP")⟩).2.backup =
      some (.text "BACKUP") ∧
    (patch_executable ⟨true, true, true, false⟩ "/a/b"
      ⟨some (.text "ORIGINAL"), some (.text "BACKUP")⟩).2.exe =
      (if true && true && !(is_already_patched (some (.text "ORIGINAL")))
          && (some (FileData.text "BACKUP")).isSome && !false
        then some (.text "BACKUP") else some (.text "ORIGINAL")) :=
  C2_running_blocked_amended ⟨true, true, true, false⟩ "/a/b"
    ⟨some (.text "ORIGINAL"), some (.text "BACKUP")⟩ rfl

/-- C3: the dry-run claim fails on the settings-key patch.  For an entry
whose name contains `docker` and whose settings file is absent, the call
creates an empty settings file on disk even with dry-run enabled: the
creation branch is not guarded by the dry-run flag. -/
theorem C3_dry_run_settings_creation_bug :
    patch_settings_file true "Docker Desktop" true
      "disableHardwareAcceleration" .absent = .ok (true, .doc (.obj [])) ∧
    SFile.doc (.obj []) ≠ SFile.absent := by
  refine ⟨rfl, ?_⟩
  intro h
  exact SFile.noConfusion h

/-- C4 counterexample: an executable carrying the marker with no sibling
backup is Inconsistent by the specification words, yet the code path
reports it as already patched (Patched); no Inconsistent classification
exists in the code. -/
theorem C4_marker_without_backup_counterexample :
    specExecState ⟨some (.text "#!/bin/bash\n# OCLP-WRAPPER-SCRIPT\nx"), none⟩
      = .Inconsistent ∧
    is_already_patched (some (.text "#!/bin/bash\n# OCLP-WRAPPER-SCRIPT\nx"))
      = true ∧
    (patch_executable ⟨true, true, false, false⟩ "/a/b"
      ⟨some (.text "#!/bin/bash\n# OCLP-WRAPPER-SCRIPT\nx"), none⟩).1
      = .alreadyPatched := ⟨rfl, rfl, rfl⟩

/-- C4 amended: whenever the marker is present in the executable content
the patch call classifies the state as already patched and performs no
mutation, regardless of whether a backup file exists. -/
theorem C4_marker_reports_already_patched (env : PatchEnv) (p : String)
    (s : ExecFS) (happ : env.appFound = true) (hexec : env.execResolved = true)
    (hmark : is_already_patched s.exe = true) :
    patch_executable env p s = (.alreadyPatched, s) := by
  simp [patch_executable, happ, hexec, hmark]

/-- C4 amended witness: marker present, backup absent. -/
theorem C4_already_patched_witness :
    patch_executable ⟨true, true, false, false⟩ "/a/b"
      ⟨some (.text "#!/bin/bash\n# OCLP-WRAPPER-SCRIPT\nx"), none⟩ =
      (.alreadyPatched,
        ⟨some (.text "#!/bin/bash\n# OCLP-WRAPPER-SCRIPT\nx"), none⟩) :=
  C4_marker_reports_already_patched ⟨true, true, false, false⟩ "/a/b"
    ⟨some (.text "#!/bin/bash\n# OCLP-WRAPPER-SCRIPT\nx"), none⟩ rfl rfl rfl

/-- C7 counterexample: for an entry with no bundle identifier whose
display name matches a running process, the specification words demand a
retry against the display name (hence `running`), but the code returns
not-running immediately without querying the name. -/
theorem C7_name_fallback_counterexample :
    specRunningCheck none (.ok false) (.ok true) = true ∧
    is_app_running none (.ok false) (.ok true) = false := ⟨rfl, rfl⟩

/-- C7 amended: the running check returns not-running at once when the
entry has no bundle identifier; with an identifier it returns the
identifier query result, consults the display-name query only when the
identifier query raises, and treats failure of both queries as not
running. -/
theorem C7_running_check_amended (bid : Option String)
    (bq nq : Except Unit Bool) :
    (bid = none → is_app_running bid bq nq = false) ∧
    (∀ b, bid = some b → ∀ m, bq = .ok m → is_app_running bid bq nq = m) ∧
    (∀ b, bid = some b → bq = .error () → ∀ m, nq = .ok m →
      is_app_running bid bq nq = m) ∧
    (∀ b, bid = some b → bq = .error () → nq = .error () →
      is_app_running bid bq nq = false) := by
  refine ⟨?_, ?_, ?_, ?_⟩
  · intro h; subst h; rfl
  · intro b hb m hm; subst hb hm; rfl
  · intro b hb hq m hm; subst hb hq hm; rfl
  · intro b hb hq hn; subst hb hq hn; rfl

/-- C7 amended witness: all four branches at concrete queries. -/
theorem C7_running_check_witness :
    is_app_running none (.ok true) (.ok true) = false ∧
    is_app_running (some "com.x") (.ok true) (.error ()) = true ∧
    is_app_running (some "com.x") (.error ()) (.ok true) = true ∧
    is_app_running (some "com.x") (.error ()) (.error ()) = false :=
  ⟨(C7_running_check_amended none (.ok true) (.ok true)).1 rfl,
   (C7_running_check_amended (some "com.x") (.ok true) (.error ())).2.1
     "com.x" rfl true rfl,
   (C7_running_check_amended (some "com.x") (.error ()) (.ok true)).2.2.1
     "com.x" rfl rfl true rfl,
   (C7_running_check_amended (some "com.x") (.error ()) (.error ())).2.2.2
     "com.x" rfl rfl rfl⟩

/-- C8: the orchestrator loop is not exception-safe.  A settings document
whose intermediate dotted-key segment holds a non-object value makes
`patch_settings_file` raise out of the per-app call, aborting the whole
batch: the second (healthy) app is never processed and no outcome is
recorded.  This is evaluated at the failing input. -/
theorem C8_batch_abort_bug :
    patch_all_known_apps false false
      [{ name := "Slack", appFound := true, execResolved := true,
         running := false, localStates := [], settingsDeclared := true,
         settingsKey := "a.b",
         settingsFile := .doc (.obj [("a", .num 5)]),
         needsExecPatch := false, exec := ⟨none, none⟩ },
       { name := "Discord", appFound := true, execResolved := true,
         running := false, localStates := [.doc (.obj [])],
         settingsDeclared := false, settingsKey := "",
         settingsFile := .absent, needsExecPatch := false,
         exec := ⟨none, none⟩ }] = .error .attributeError := rfl

/-- C5 counterexample: a parseable document whose flag list holds two
entries for the target key.  The first application rewrites both in
place, so the resulting document holds two entries for the target key,
refuting `exactly one entry`. -/
theorem C5_duplicate_entries_counterexample :
    patch_local_state false (.doc (.obj [("browser", .obj
        [("enabled_labs_experiments",
          .arr [.str "use-angle@2", .str "use-angle@3"])])])) =
      .ok (true, .doc (.obj [("browser", .obj
        [("enabled_labs_experiments",
          .arr [.str "use-angle@1", .str "use-angle@1"])])])) ∧
    countTarget [.str "use-angle@1", .str "use-angle@1"] = 2 := ⟨rfl, rfl⟩

/-- C5 amended: for every parseable preference document on which the
patch succeeds, a second application performs no write and returns the
same file state; the resulting document holds at least one entry for the
target key, every entry for the target key carries the desired value,
and the number of target-key entries is one when the input had none and
otherwise exactly the input count (so exactly one whenever the input had
at most one). -/
theorem C5_idempotent_patch_amended (j : Json) (r1 : Bool) (f1 : PrefFile)
    (h : patch_local_state false (.doc j) = .ok (r1, f1)) :
    patch_local_state false f1 = .ok (false, f1) ∧
    ∃ j1, f1 = .doc j1 ∧
      (∃ x ∈ experimentsOf j1, matchesTarget x = true) ∧
      (∀ x ∈ experimentsOf j1, matchesTarget x = true →
        ∃ s2, x = Json.str s2 ∧ entryVal s2 = DESIRED_VALUE) ∧
      countTarget (experimentsOf j1) =
        (if countTarget (experimentsOf j) = 0 then 1
          else countTarget (experimentsOf j)) := by
  simp only [patch_local_state] at h
  cases hd : patchLocalStateDoc j with
  | error e =>
    rw [hd] at h
    exact absurd h (by simp)
  | ok p =>
    rw [hd] at h
    obtain ⟨ch, j2⟩ := p
    obtain ⟨kvs, bkvs, hj, hb, hch, hj2⟩ := patchLocalStateDoc_ok_inv j ch j2 hd
    have hexp : experimentsOf j = extractExperiments bkvs := by
      rw [hj]
      exact experimentsOf_inv kvs bkvs hb
    cases ch with
    | false =>
      have h2 : (Except.ok (false, PrefFile.doc j) :
          Except PyErr (Bool × PrefFile)) = .ok (r1, f1) := h
      rw [Except.ok.injEq, Prod.mk.injEq] at h2
      obtain ⟨hr, hf⟩ := h2
      subst hr
      subst hf
      have hne : (patchExperiments (extractExperiments bkvs)).2 = false := hch.symm
      have hfst : (patchExperiments (extractExperiments bkvs)).1 =
          extractExperiments bkvs := patchExperiments_not_changed _ hne
      obtain ⟨x, hx, hcor⟩ := patchExperiments_has_correct (extractExperiments bkvs)
      refine ⟨?_, j, rfl, ?_, ?_, ?_⟩
      · simp only [patch_local_state]
        rw [hd]
        rfl
      · rw [hexp]
        rw [hfst] at hx
        exact ⟨x, hx, correct_matches x hcor⟩
      · rw [hexp]
        intro y hy hm
        rw [← hfst] at hy
        exact matching_result_value _ y hy hm
      · rw [hexp]
        have hpos : 0 < countTarget (extractExperiments bkvs) := by
          rw [countTarget, List.countP_pos]
          rw [hfst] at hx
          exact ⟨x, hx, correct_matches x hcor⟩
        rw [if_neg (Nat.pos_iff_ne_zero.1 hpos)]
    | true =>
      have h2 : (Except.ok (true, PrefFile.doc j2) :
          Except PyErr (Bool × PrefFile)) = .ok (r1, f1) := h
      rw [Except.ok.injEq, Prod.mk.injEq] at h2
      obtain ⟨hr, hf⟩ := h2
      subst hr
      subst hf
      have hredo : patchLocalStateDoc j2 = .ok (false, j2) := by
        rw [hj2]
        exact patchLocalStateDoc_rebuild kvs bkvs _
          (patchExperiments_stable (extractExperiments bkvs))
      have hexp2 : experimentsOf j2 =
          (patchExperiments (extractExperiments bkvs)).1 := by
        rw [hj2]
        exact experimentsOf_rebuild kvs bkvs _
      obtain ⟨x, hx, hcor⟩ := patchExperiments_has_correct (extractExperiments bkvs)
      refine ⟨?_, j2, rfl, ?_, ?_, ?_⟩
      · simp only [patch_local_state]
        rw [hredo]
        rfl
      · rw [hexp2]
        exact ⟨x, hx, correct_matches x hcor⟩
      · rw [hexp2]
        intro y hy hm
        exact matching_result_value _ y hy hm
      · rw [hexp2, hexp]
        exact countTarget_patchExperiments (extractExperiments bkvs)

/-- C5 amended witness: a document with one wrong-valued entry for the
target key; the first application rewrites it, the second writes
nothing. -/
theorem C5_idempotent_patch_witness :
    patch_local_state false (.doc (.obj [("browser", .obj
        [("enabled_labs_experiments", .arr [.str "use-angle@2"])])])) =
      .ok (true, .doc (.obj [("browser", .obj
        [("enabled_labs_experiments", .arr [.str "use-angle@1"])])])) ∧
    (patch_local_state false (.doc (.obj [("browser", .obj
        [("enabled_labs_experiments", .arr [.str "use-angle@1"])])])) =
      .ok (false, .doc (.obj [("browser", .obj
        [("enabled_labs_experiments", .arr [.str "use-angle@1"])])]))) ∧
    ∃ j1, (PrefFile.doc (.obj [("browser", .obj
        [("enabled_labs_experiments", .arr [.str "use-angle@1"])])])) = .doc j1 ∧
      (∃ x ∈ experimentsOf j1, matchesTarget x = true) ∧
      (∀ x ∈ experimentsOf j1, matchesTarget x = true →
        ∃ s2, x = Json.str s2 ∧ entryVal s2 = DESIRED_VALUE) ∧
      countTarget (experimentsOf j1) =
        (if countTarget (experimentsOf (.obj [("browser", .obj
          [("enabled_labs_experiments", .arr [.str "use-angle@2"])])])) = 0
          then 1
          else countTarget (experimentsOf (.obj [("browser", .obj
            [("enabled_labs_experiments", .arr [.str "use-angle@2"])])]))) :=
  ⟨rfl, C5_idempotent_patch_amended
    (.obj [("browser", .obj
      [("enabled_labs_experiments", .arr [.str "use-angle@2"])])])
    true
    (.doc (.obj [("browser", .obj
      [("enabled_labs_experiments", .arr [.str "use-angle@1"])])])) rfl⟩

/-- C6: whenever a preference-flag patch writes a document, every
top-level key other than `browser` keeps its value, the top-level key
order is preserved (with `browser` appended at the end only when it was
absent), every `browser` sub-key other than the flag list keeps its
value, and the flag-list entries not matching the target key are
preserved verbatim in order.  This includes documents whose flag-list
key holds a non-list value. -/
theorem C6_frame_preservation (j j1 : Json)
    (h : patch_local_state false (.doc j) = .ok (true, .doc j1)) :
    (∀ k, k ≠ "browser" → jsonGet j1 k = jsonGet j k) ∧
    topKeys j1 = (if (jsonGet j "browser").isSome then topKeys j
      else topKeys j ++ ["browser"]) ∧
    (∀ k, k ≠ "enabled_labs_experiments" → browserGet j1 k = browserGet j k) ∧
    (experimentsOf j1).filter (fun e => !matchesTarget e) =
      (experimentsOf j).filter (fun e => !matchesTarget e) := by
  simp only [patch_local_state] at h
  cases hd : patchLocalStateDoc j with
  | error e =>
    rw [hd] at h
    exact absurd h (by simp)
  | ok p =>
    rw [hd] at h
    obtain ⟨ch, j2⟩ := p
    obtain ⟨kvs, bkvs, hj, hb, hch, hj2⟩ := patchLocalStateDoc_ok_inv j ch j2 hd
    cases ch with
    | false =>
      have h2 : (Except.ok (false, PrefFile.doc j) :
          Except PyErr (Bool × PrefFile)) = .ok (true, .doc j1) := h
      rw [Except.ok.injEq, Prod.mk.injEq] at h2
      exact absurd h2.1 (by simp)
    | true =>
      have h2 : (Except.ok (true, PrefFile.doc j2) :
          Except PyErr (Bool × PrefFile)) = .ok (true, .doc j1) := h
      rw [Except.ok.injEq, Prod.mk.injEq] at h2
      have hj1 : j1 = j2 := by
        have := h2.2
        injection this with h3
        exact h3.symm
      subst hj1
      subst hj
      refine ⟨?_, ?_, ?_, ?_⟩
      · intro k hk
        rw [hj2]
        simp only [jsonGet]
        exact objFind_objSet_ne kvs "browser" k _ hk
      · rw [hj2]
        simp only [topKeys, jsonGet]
        exact objSet_map_fst kvs "browser" _
      · intro k hk
        rw [hj2]
        simp only [browserGet, jsonGet, objFind_objSet_same]
        rcases hb with hbs | ⟨hbn, hbe⟩
        · rw [hbs]
          exact objFind_objSet_ne bkvs "enabled_labs_experiments" k _ hk
        · rw [hbn, hbe]
          rw [objFind_objSet_ne [] "enabled_labs_experiments" k _ hk]
          simp [objFind]
      · rw [hj2, experimentsOf_rebuild,
          experimentsOf_inv kvs bkvs hb]
        exact filter_nonmatching_patchExperiments (extractExperiments bkvs)

/-- C6 witness: a document with an unrelated top-level key, an unrelated
browser sub-key and a non-list flag-list value, all preserved across the
write. -/
theorem C6_frame_preservation_witness :
    patch_local_state false (.doc (.obj [("a", .num 1), ("browser", .obj
        [("enabled_labs_experiments", .str "bad"), ("z", .num 2)])])) =
      .ok (true, .doc (.obj [("a", .num 1), ("browser", .obj
        [("enabled_labs_experiments", .arr [.str "use-angle@1"]),
          ("z", .num 2)])])) ∧
    ((∀ k, k ≠ "browser" →
      jsonGet (.obj [("a", .num 1), ("browser", .obj
        [("enabled_labs_experiments", .arr [.str "use-angle@1"]),
          ("z", .num 2)])]) k =
      jsonGet (.obj [("a", .num 1), ("browser", .obj
        [("enabled_labs_experiments", .str "bad"), ("z", .num 2)])]) k) ∧
    topKeys (.obj [("a", .num 1), ("browser", .obj
        [("enabled_labs_experiments", .arr [.str "use-angle@1"]),
          ("z", .num 2)])]) =
      (if (jsonGet (.obj [("a", .num 1), ("browser", .obj
        [("enabled_labs_experiments", .str "bad"), ("z", .num 2)])])
          "browser").isSome
        then topKeys (.obj [("a", .num 1), ("browser", .obj
          [("enabled_labs_experiments", .str "bad"), ("z", .num 2)])])
        else topKeys (.obj [("a", .num 1), ("browser", .obj
          [("enabled_labs_experiments", .str "bad"),
            ("z", .num 2)])]) ++ ["browser"]) ∧
    (∀ k, k ≠ "enabled_labs_experiments" →
      browserGet (.obj [("a", .num 1), ("browser", .obj
        [("enabled_labs_experiments", .arr [.str "use-angle@1"]),
          ("z", .num 2)])]) k =
      browserGet (.obj [("a", .num 1), ("browser", .obj
        [("enabled_labs_experiments", .str "bad"), ("z", .num 2)])]) k) ∧
    (experimentsOf (.obj [("a", .num 1), ("browser", .obj
        [("enabled_labs_experiments", .arr [.str "use-angle@1"]),
          ("z", .num 2)])])).filter (fun e => !matchesTarget e) =
      (experimentsOf (.obj [("a", .num 1), ("browser", .obj
        [("enabled_labs_experiments", .str "bad"),
          ("z", .num 2)])])).filter (fun e => !matchesTarget e)) :=
  ⟨rfl, C6_frame_preservation
    (.obj [("a", .num 1), ("browser", .obj
      [("enabled_labs_experiments", .str "bad"), ("z", .num 2)])])
    (.obj [("a", .num 1), ("browser", .obj
      [("enabled_labs_experiments", .arr [.str "use-angle@1"]),
        ("z", .num 2)])]) rfl⟩

/-- C10: a flag-list entry of the form `key@value@extra` is matched by
the text before its first `@`, its current value is read as the segment
between the first and second `@` only, and when key and first value
segment equal the target pair the entry is marked already correct and
left unchanged, which also suppresses any append; entries that are not
strings or contain no `@` are skipped unchanged. -/
theorem C10_entry_matching (s : String) (t : String) (ts : List String)
    (hsplit : pySplit s '@' = DESIRED_KEY :: DESIRED_VALUE :: t :: ts)
    (hat : s.toList.contains '@' = true)
    (l : List Json) (hmem : Json.str s ∈ l) :
    procEntry (.str s) = (.str s, false, true) ∧
    (patchExperiments l).1 = (procList l).1 ∧
    (∀ e : Json, (∀ u, e ≠ Json.str u) → procEntry e = (e, false, false)) ∧
    (∀ u : String, u.toList.contains '@' = false →
      procEntry (.str u) = (.str u, false, false)) := by
  have hpe : procEntry (.str s) = (.str s, false, true) := by
    simp only [procEntry]
    rw [if_pos hat]
    rw [hsplit]
    simp
  refine ⟨hpe, ?_, ?_, ?_⟩
  · have hcorr : (procList l).2.2 = true := by
      rw [procList_correct_any, List.any_eq_true]
      exact ⟨Json.str s, hmem, by rw [hpe]⟩
    simp only [patchExperiments, hcorr, Bool.not_true, Bool.false_and,
      Bool.false_eq_true, if_false]
  · intro e he
    cases e with
    | str u => exact absurd rfl (he u)
    | null => rfl
    | bool b => rfl
    | num n => rfl
    | arr xs => rfl
    | obj kvs => rfl
  · intro u hu
    simp only [procEntry]
    rw [if_neg (by rw [hu]; exact Bool.false_ne_true)]

/-- C10 witness: the entry `use-angle@1@extra` inside a concrete list is
marked correct, left unchanged, and prevents an append. -/
theorem C10_entry_matching_witness :
    procEntry (.str "use-angle@1@extra") =
      (.str "use-angle@1@extra", false, true) ∧
    (patchExperiments [Json.num 7, Json.str "use-angle@1@extra"]).1 =
      (procList [Json.num 7, Json.str "use-angle@1@extra"]).1 ∧
    (∀ e : Json, (∀ u, e ≠ Json.str u) → procEntry e = (e, false, false)) ∧
    (∀ u : String, u.toList.contains '@' = false →
      procEntry (.str u) = (.str u, false, false)) :=
  C10_entry_matching "use-angle@1@extra" "extra" []
    (by rfl) (by rfl)
    [Json.num 7, Json.str "use-angle@1@extra"]
    (by simp)

/-- C9: the patched-state detector returns false (Unpatched) whenever the
executable path does not exist or its content cannot be decoded as text;
it never classifies an unreadable file as patched, and as a total
function it never raises. -/
theorem C9_unreadable_not_patched (f : Option FileData)
    (h : f = none ∨ ∃ b, f = some (.binary b)) :
    is_already_patched f = false := by
  rcases h with h | ⟨b, h⟩ <;> subst h <;> rfl

/-- C9 witness: a missing path and a concrete binary file. -/
theorem C9_unreadable_not_patched_witness :
    is_already_patched none = false ∧
    is_already_patched (some (.binary [77, 90])) = false :=
  ⟨C9_unreadable_not_patched none (Or.inl rfl),
   C9_unreadable_not_patched (some (.binary [77, 90]))
     (Or.inr ⟨[77, 90], rfl⟩)⟩

end ElectronPatcher
